import Mathlib

/-!
# Verification of the elastic-explorer credential vault and version-adaptive client

Shallow embedding of the credential / version subsystem of `elastic-explorer`
(`src/db/mod.rs`, `src/db/credentials.rs`, `src/config/mod.rs`, `src/es/client.rs`,
`src/es/api.rs`), together with proofs of the specified properties.

Modelling conventions:
* Rust `u8` bytes are `Nat` values, constrained `< 256` where it matters.
* Rust `String` / `Vec<u8>` values that participate in the cryptographic layer are
  modelled by their UTF-8 byte sequences (`List Nat`); textual payloads (base64, hex)
  are Lean `String`s or `List Char`.
* `anyhow::Result<T>` is `Except String T`, where the error value is the message the
  Rust code attaches at that failure site (via `anyhow!` or `.context`).
* The OS entropy source (`rand::rngs::OsRng`) is made explicit: freshly drawn random
  bytes (nonces, keys) are parameters of the embedded functions.
* The AES-256-GCM primitive from the `aes_gcm` crate is an external dependency of the
  repository; it is modelled as an abstract `AeadCipher` bundling the crate's
  documented contract (decryption inverts encryption under the same key and nonce,
  ciphertexts are byte sequences).
* Filesystem and sqlite state are passed explicitly (the key file as
  `Option (List Char)`, the endpoints table as `List Endpoint`).
-/

deriving instance DecidableEq for Except

namespace ElasticExplorer

/-! ## Base64 (the `base64` crate's `BASE64_STANDARD` engine)

`Database::encrypt_password` encodes `nonce || ciphertext` with
`base64::prelude::BASE64_STANDARD.encode`, and `Database::decrypt_password` decodes
with the same engine.  The standard alphabet with canonical `=` padding is embedded
here, rejecting invalid characters, non-multiple-of-4 lengths, misplaced padding and
non-zero trailing bits, as the crate's default configuration does. -/

/-- Character of the standard base64 alphabet for a six-bit value. -/
def b64Char (n : Nat) : Char :=
  if n < 26 then Char.ofNat (65 + n)
  else if n < 52 then Char.ofNat (97 + (n - 26))
  else if n < 62 then Char.ofNat (48 + (n - 52))
  else if n = 62 then '+'
  else '/'

/-- Six-bit value of a standard base64 alphabet character; `none` for characters
outside the alphabet (including the padding character `=`). -/
def b64Val (c : Char) : Option Nat :=
  if 'A' ≤ c ∧ c ≤ 'Z' then some (c.toNat - 65)
  else if 'a' ≤ c ∧ c ≤ 'z' then some (c.toNat - 97 + 26)
  else if '0' ≤ c ∧ c ≤ '9' then some (c.toNat - 48 + 52)
  else if c = '+' then some 62
  else if c = '/' then some 63
  else none

/-- Standard base64 encoding of a byte sequence, three bytes to four characters,
with `=` padding on the final quantum. -/
def b64encodeList : List Nat → List Char
  | [] => []
  | [a] => [b64Char (a / 4), b64Char (a % 4 * 16), '=', '=']
  | [a, b] => [b64Char (a / 4), b64Char (a % 4 * 16 + b / 16), b64Char (b % 16 * 4), '=']
  | a :: b :: c :: rest =>
      b64Char (a / 4) :: b64Char (a % 4 * 16 + b / 16) :: b64Char (b % 16 * 4 + c / 64)
        :: b64Char (c % 64) :: b64encodeList rest

def b64encode (l : List Nat) : String := String.mk (b64encodeList l)

/-- Decoding of a final base64 quantum of four characters, handling the two padded
shapes; rejects non-canonical (non-zero) trailing bits as the crate's default does. -/
def b64decodeQuantum (c0 c1 c2 c3 : Char) : Option (List Nat) :=
  if c3 = '=' then
    if c2 = '=' then
      match b64Val c0, b64Val c1 with
      | some s0, some s1 => if s1 % 16 = 0 then some [s0 * 4 + s1 / 16] else none
      | _, _ => none
    else
      match b64Val c0, b64Val c1, b64Val c2 with
      | some s0, some s1, some s2 =>
          if s2 % 4 = 0 then some [s0 * 4 + s1 / 16, s1 % 16 * 16 + s2 / 4] else none
      | _, _, _ => none
  else
    match b64Val c0, b64Val c1, b64Val c2, b64Val c3 with
    | some s0, some s1, some s2, some s3 =>
        some [s0 * 4 + s1 / 16, s1 % 16 * 16 + s2 / 4, s2 % 4 * 64 + s3]
    | _, _, _, _ => none

/-- Standard base64 decoding of a character sequence; `none` on any invalid input. -/
def b64decodeList : List Char → Option (List Nat)
  | [] => some []
  | c0 :: c1 :: c2 :: c3 :: rest =>
      if rest = [] then b64decodeQuantum c0 c1 c2 c3
      else
        match b64Val c0, b64Val c1, b64Val c2, b64Val c3, b64decodeList rest with
        | some s0, some s1, some s2, some s3, some tail =>
            some ((s0 * 4 + s1 / 16) :: (s1 % 16 * 16 + s2 / 4) :: (s2 % 4 * 64 + s3) :: tail)
        | _, _, _, _, _ => none
  | _ => none

def b64decode (s : String) : Option (List Nat) := b64decodeList s.data

/-! ## UTF-8 validation

`Database::decrypt_password` ends with `String::from_utf8(plaintext)`.  A Rust
`String` is its UTF-8 byte sequence, so `from_utf8` is modelled as a validation of
the byte sequence (RFC 3629 well-formedness: correct continuation bytes, no
overlongs, no surrogates, maximum U+10FFFF). -/

/-- A UTF-8 continuation byte. -/
def isCont (b : Nat) : Bool := 128 ≤ b && b ≤ 191

/-- RFC 3629 well-formedness of a byte sequence, as `String::from_utf8` checks it. -/
def isValidUtf8 : List Nat → Bool
  | [] => true
  | b :: rest =>
    if b < 128 then isValidUtf8 rest
    else if 194 ≤ b ∧ b ≤ 223 then
      match rest with
      | b1 :: rest1 => isCont b1 && isValidUtf8 rest1
      | [] => false
    else if b = 224 then
      match rest with
      | b1 :: b2 :: rest1 => (160 ≤ b1 && b1 ≤ 191) && isCont b2 && isValidUtf8 rest1
      | _ => false
    else if (225 ≤ b ∧ b ≤ 236) ∨ (238 ≤ b ∧ b ≤ 239) then
      match rest with
      | b1 :: b2 :: rest1 => isCont b1 && isCont b2 && isValidUtf8 rest1
      | _ => false
    else if b = 237 then
      match rest with
      | b1 :: b2 :: rest1 => (128 ≤ b1 && b1 ≤ 159) && isCont b2 && isValidUtf8 rest1
      | _ => false
    else if b = 240 then
      match rest with
      | b1 :: b2 :: b3 :: rest1 =>
          (144 ≤ b1 && b1 ≤ 191) && isCont b2 && isCont b3 && isValidUtf8 rest1
      | _ => false
    else if 241 ≤ b ∧ b ≤ 243 then
      match rest with
      | b1 :: b2 :: b3 :: rest1 => isCont b1 && isCont b2 && isCont b3 && isValidUtf8 rest1
      | _ => false
    else if b = 244 then
      match rest with
      | b1 :: b2 :: b3 :: rest1 =>
          (128 ≤ b1 && b1 ≤ 143) && isCont b2 && isCont b3 && isValidUtf8 rest1
      | _ => false
    else false

/-! ## The AEAD primitive (`aes_gcm` crate, `Aes256Gcm`)

`Database::encrypt_password` and `Database::decrypt_password` call
`Aes256Gcm::new(key)` followed by `.encrypt(nonce, plaintext)` / `.decrypt(nonce,
ciphertext)`.  The cipher is an external dependency of the repository; it is
embedded as an abstract structure bundling the crate's documented contract:
decryption inverts encryption under the same key and nonce, and ciphertexts are
byte sequences.  (`Aes256Gcm::encrypt` into a fresh `Vec` cannot fail for any
in-memory plaintext, so encryption is total here.) -/

structure AeadCipher where
  /-- Embeds `cipher.encrypt(nonce, plaintext)`: ciphertext together with the
  authentication tag. -/
  enc : (key : List Nat) → (nonce : List Nat) → (pt : List Nat) → List Nat
  /-- Embeds `cipher.decrypt(nonce, ciphertext)`: `none` models the opaque
  `aes_gcm::Error` on tag-verification failure. -/
  dec : (key : List Nat) → (nonce : List Nat) → (ct : List Nat) → Option (List Nat)
  /-- AEAD correctness: decryption under the same key and nonce inverts encryption. -/
  dec_enc : ∀ key nonce pt, dec key nonce (enc key nonce pt) = some pt
  /-- Ciphertexts are byte sequences. -/
  enc_bytes : ∀ key nonce pt, (∀ b ∈ pt, b < 256) → ∀ b ∈ enc key nonce pt, b < 256

/-- A concrete executable instance of the AEAD interface, used only to evaluate the
theorems at concrete inputs: the "ciphertext" is the plaintext preceded by a length
byte playing the role of the authentication tag (so that decryption can fail). -/
def demoCipher : AeadCipher where
  enc := fun _ _ pt => pt.length % 256 :: pt
  dec := fun _ _ ct =>
    match ct with
    | [] => none
    | t :: rest => if t = rest.length % 256 then some rest else none
  dec_enc := by intro key nonce pt; simp
  enc_bytes := by
    intro key nonce pt hpt b hb
    rcases List.mem_cons.1 hb with h | h
    · omega
    · exact hpt b h

/-! ## `Database` credential encryption (`src/db/mod.rs`) -/

/-- The field of `Database` the credential layer reads; the sqlite pool is modelled
separately, as the list of endpoint rows it holds. -/
structure Database where
  encryption_key : List Nat

/-- Embeds `Database::encrypt_password` (src/db/mod.rs:226-241): draw a fresh 12-byte
nonce from `OsRng` (here the explicit `nonce` argument), AEAD-encrypt the password
under `self.encryption_key`, and base64-encode `nonce || ciphertext`. -/
def Database.encrypt_password (A : AeadCipher) (self : Database) (nonce : List Nat)
    (password : List Nat) : String :=
  b64encode (nonce ++ A.enc self.encryption_key nonce password)

/-- Embeds `Database::decrypt_password` (src/db/mod.rs:243-259): base64-decode, require at
least the 12 nonce bytes, split nonce from ciphertext, AEAD-decrypt, and validate
the plaintext as UTF-8.  Error values are the messages the Rust code attaches at
each failure site. -/
def Database.decrypt_password (A : AeadCipher) (self : Database) (encrypted : String) :
    Except String (List Nat) :=
  match b64decode encrypted with
  | none => .error "Failed to decode encrypted password"
  | some payload =>
    if payload.length < 12 then .error "Encrypted password payload is too short"
    else
      match A.dec self.encryption_key (payload.take 12) (payload.drop 12) with
      | none => .error "Failed to decrypt password"
      | some plaintext =>
          if isValidUtf8 plaintext then .ok plaintext
          else .error "Decrypted password is not valid UTF-8"

/-! ## Endpoint records and the vault read/write paths (`src/db/mod.rs`) -/

/-- An endpoints-table row as `Database` reads and writes it (timestamps are
abstract instants). -/
structure Endpoint where
  id : Int
  name : String
  url : String
  insecure : Bool
  username : Option String
  password_encrypted : Option String
  created_at : Nat
  updated_at : Nat
deriving DecidableEq

/-- The `tracing` log levels reachable from `Database::get_endpoint_password`. -/
inductive LogLevel where
  | debug
  | warn
deriving DecidableEq

/-- The warning attached when a stored payload fails to decrypt. -/
def warnDecryptMsg (id : Int) (msg : String) : String :=
  "Failed to decrypt password for endpoint " ++ toString id ++ ": " ++ msg

/-- The trailing log line of `Database::get_endpoint_password`. -/
def noPasswordMsg (id : Int) : String :=
  "No password available for endpoint " ++ toString id

/-- Embeds `Database::get_endpoint_password` (src/db/mod.rs:204-224): if a payload is
stored and decrypts, return the password; on decrypt failure log a warning and fall
through; with no usable password, log (warning when a username is configured,
debug otherwise) and return `none`.  The emitted log lines are returned alongside
the result. -/
def Database.get_endpoint_password (A : AeadCipher) (self : Database)
    (endpoint : Endpoint) : Option (List Nat) × List (LogLevel × String) :=
  match endpoint.password_encrypted with
  | some encrypted =>
    match self.decrypt_password A encrypted with
    | .ok password => (some password, [])
    | .error e =>
        if endpoint.username.isSome then
          (none, [(LogLevel.warn, warnDecryptMsg endpoint.id e),
                  (LogLevel.warn, noPasswordMsg endpoint.id)])
        else
          (none, [(LogLevel.warn, warnDecryptMsg endpoint.id e),
                  (LogLevel.debug, noPasswordMsg endpoint.id)])
  | none =>
      if endpoint.username.isSome then
        (none, [(LogLevel.warn, noPasswordMsg endpoint.id)])
      else
        (none, [(LogLevel.debug, noPasswordMsg endpoint.id)])

/-- The update payload of `Database::update_endpoint` (src/db/models.rs,
`UpdateEndpoint`); the password, when supplied, is its byte sequence. -/
structure UpdateEndpoint where
  name : Option String
  url : Option String
  insecure : Option Bool
  username : Option String
  password : Option (List Nat)

/-- Embeds `Database::update_endpoint` (src/db/mod.rs:168-201): require name, url and
insecure; update the row's identity fields and `updated_at`; then, only if a new
password was supplied, encrypt it and overwrite `password_encrypted`. -/
def Database.update_endpoint (A : AeadCipher) (self : Database) (nonce : List Nat)
    (now : Nat) (rows : List Endpoint) (id : Int) (endpoint : UpdateEndpoint) :
    Except String (List Endpoint) :=
  match endpoint.name with
  | none => .error "Missing endpoint name"
  | some name =>
  match endpoint.url with
  | none => .error "Missing endpoint url"
  | some url =>
  match endpoint.insecure with
  | none => .error "Missing endpoint insecure flag"
  | some insecure =>
    let rows1 := rows.map fun r =>
      if r.id = id then
        { r with name := name, url := url, insecure := insecure,
                 username := endpoint.username, updated_at := now }
      else r
    match endpoint.password with
    | none => .ok rows1
    | some password =>
        let encrypted := self.encrypt_password A nonce password
        .ok (rows1.map fun r =>
          if r.id = id then { r with password_encrypted := some encrypted } else r)

/-! ## Remote version parsing and gating (`src/es/client.rs`, `src/es/api.rs`) -/

structure EsVersion where
  major : Nat
  minor : Nat
  patch : Nat
deriving DecidableEq

/-- Rust `str::split('.')`: splits at every dot, keeping empty segments (the empty
string yields one empty segment). -/
def splitOnDot : List Char → List (List Char)
  | [] => [[]]
  | '.' :: rest => [] :: splitOnDot rest
  | c :: rest =>
    match splitOnDot rest with
    | h :: t => (c :: h) :: t
    | [] => [[c]]

/-- Digit accumulation for `u32::from_str`. -/
def parseDigits : List Char → Nat → Option Nat
  | [], acc => some acc
  | c :: rest, acc =>
      if '0' ≤ c ∧ c ≤ '9' then parseDigits rest (acc * 10 + (c.toNat - 48)) else none

/-- Rust `str::parse::<u32>()`: an optional leading `+`, then one or more ASCII
digits, rejecting values outside `u32` range. -/
def parse_u32 (s : List Char) : Option Nat :=
  let digits := match s with
    | '+' :: rest => rest
    | cs => cs
  match digits with
  | [] => none
  | _ =>
    match parseDigits digits 0 with
    | some n => if n < 4294967296 then some n else none
    | none => none

/-- Embeds `EsVersion::from_string` (src/es/client.rs:24-37): split on `.`, require at
least three components, parse the first three as `u32`. -/
def EsVersion.from_string (version_str : String) : Except String EsVersion :=
  match splitOnDot version_str.data with
  | p0 :: p1 :: p2 :: _ =>
    match parse_u32 p0 with
    | none => .error "Invalid major version"
    | some major =>
    match parse_u32 p1 with
    | none => .error "Invalid minor version"
    | some minor =>
    match parse_u32 p2 with
    | none => .error "Invalid patch version"
    | some patch => .ok ⟨major, minor, patch⟩
  | _ => .error ("Invalid version format: " ++ version_str)

/-- Embeds `EsClient::get_index_templates` (src/es/api.rs:148-161): the request path
chosen from the cached version; with no cached version it falls back to the modern
API. -/
def get_index_templates_path (version : Option EsVersion) : String :=
  match version with
  | some v =>
      if v.major ≥ 8 ∨ (v.major = 7 ∧ v.minor ≥ 8) then "/_index_template"
      else "/_template"
  | none => "/_index_template"

/-- Embeds `EsClient::get_component_templates` (src/es/api.rs:164-171): the request path
when the gate passes; the error otherwise — including when no version has been
detected, since the `Err` is reached whenever the `if let` body does not return. -/
def get_component_templates_path (version : Option EsVersion) : Except String String :=
  match version with
  | some v =>
      if v.major ≥ 8 ∨ (v.major = 7 ∧ v.minor ≥ 8) then .ok "/_component_template"
      else .error "Component templates require Elasticsearch 7.8 or higher"
  | none => .error "Component templates require Elasticsearch 7.8 or higher"

/-! ## Key management (`src/config/mod.rs`) -/

/-- Lowercase hex digit, as `hex::encode` produces. -/
def hexDigitChar (n : Nat) : Char :=
  if n < 10 then Char.ofNat (48 + n) else Char.ofNat (97 + (n - 10))

/-- Value of a hex digit; `hex::decode` accepts both cases. -/
def hexCharVal (c : Char) : Option Nat :=
  if '0' ≤ c ∧ c ≤ '9' then some (c.toNat - 48)
  else if 'a' ≤ c ∧ c ≤ 'f' then some (c.toNat - 97 + 10)
  else if 'A' ≤ c ∧ c ≤ 'F' then some (c.toNat - 65 + 10)
  else none

def hexEncodeList : List Nat → List Char
  | [] => []
  | b :: rest => hexDigitChar (b / 16) :: hexDigitChar (b % 16) :: hexEncodeList rest

def hexDecodeList : List Char → Option (List Nat)
  | [] => some []
  | c0 :: c1 :: rest =>
    match hexCharVal c0, hexCharVal c1, hexDecodeList rest with
    | some hi, some lo, some tail => some ((hi * 16 + lo) :: tail)
    | _, _, _ => none
  | _ => none

/-- Rust `char::is_whitespace` (the Unicode White_Space property). -/
def isRustWhitespace (c : Char) : Bool :=
  c.toNat = 9 ∨ c.toNat = 10 ∨ c.toNat = 11 ∨ c.toNat = 12 ∨ c.toNat = 13
    ∨ c.toNat = 32 ∨ c.toNat = 133 ∨ c.toNat = 160 ∨ c.toNat = 5760
    ∨ (8192 ≤ c.toNat ∧ c.toNat ≤ 8202) ∨ c.toNat = 8232 ∨ c.toNat = 8233
    ∨ c.toNat = 8239 ∨ c.toNat = 8287 ∨ c.toNat = 12288

/-- Rust `str::trim`. -/
def trimChars (cs : List Char) : List Char :=
  ((cs.dropWhile isRustWhitespace).reverse.dropWhile isRustWhitespace).reverse

/-- Embeds `load_or_create_key` (src/config/mod.rs:34-69).  The key file is threaded
explicitly (`none` = absent); `fresh_key` is the 32 random bytes `OsRng` yields on
the create path.  Returns the key together with the resulting file content.  (The
best-effort 0600 permission step has no observable effect here.) -/
def load_or_create_key (key_file : Option (List Char)) (fresh_key : List Nat) :
    Except String (List Nat × Option (List Char)) :=
  match key_file with
  | some content =>
    match hexDecodeList (trimChars content) with
    | none => .error "Failed to decode encryption key"
    | some key_bytes =>
        if key_bytes.length ≠ 32 then .error "Encryption key must be 32 bytes"
        else .ok (key_bytes, some content)
  | none => .ok (fresh_key, some (hexEncodeList fresh_key))

/-! ## Legacy password migration (spec §4.4) -/

/-- The historical endpoints-table row shape (src/db/models.rs: the
`password_keychain_id` / `password_fallback` columns superseded by
`password_encrypted`). -/
structure LegacyEndpointRecord where
  id : Int
  password_keychain_id : Option String
  password_fallback : Option String

/-- Modelled from the spec: the legacy-password migration step.  The repository
runs it from `Database::run_migrations` (src/db/mod.rs:48-92) as migration
`004_remove_legacy_passwords.sql`, whose file is not part of the sources here;
only its caller, the legacy column declarations in src/db/models.rs and the
external-secret-store accessor `credentials::get_password`
(src/db/credentials.rs:19-33) are.  Per spec §4.4: resolve the plaintext by
trying the external secret store first, falling back to base64-decoding the
fallback column on failure or absence, and re-encrypt it under the current key;
a record with no recoverable plaintext migrates to no stored secret. -/
def migrate_legacy_record (A : AeadCipher) (db : Database) (nonce : List Nat)
    (secret_store : String → Except String (List Nat)) (record : LegacyEndpointRecord) :
    Option String :=
  let from_store : Option (List Nat) :=
    match record.password_keychain_id with
    | some keychain_id =>
      match secret_store keychain_id with
      | .ok pw => some pw
      | .error _ => none
    | none => none
  let plaintext : Option (List Nat) :=
    match from_store with
    | some pw => some pw
    | none =>
      match record.password_fallback with
      | some fb => b64decode fb
      | none => none
  plaintext.map fun pw => db.encrypt_password A nonce pw

/-! ## Helper lemmas: base64 -/

/-- Decoding a base64 character produced from a six-bit value recovers the value. -/
theorem b64Val_b64Char : ∀ n < 64, b64Val (b64Char n) = some n := by decide

/-- The base64 alphabet never produces the padding character. -/
theorem b64Char_ne_pad : ∀ n < 64, b64Char n ≠ '=' := by decide

/-- The encoder returns the empty character sequence only on empty input. -/
theorem b64encodeList_eq_nil_iff (l : List Nat) : b64encodeList l = [] ↔ l = [] := by
  match l with
  | [] => simp [b64encodeList]
  | [a] => simp [b64encodeList]
  | [a, b] => simp [b64encodeList]
  | a :: b :: c :: rest => simp [b64encodeList]

/-- Base64 round-trip: decoding an encoded byte sequence recovers the bytes. -/
theorem b64decodeList_b64encodeList (l : List Nat) (hl : ∀ b ∈ l, b < 256) :
    b64decodeList (b64encodeList l) = some l := by
  induction l using b64encodeList.induct with
  | case1 => rfl
  | case2 a =>
      have ha : a < 256 := hl a (by simp)
      simp only [b64encodeList, b64decodeList, if_pos rfl, b64decodeQuantum]
      rw [b64Val_b64Char (a / 4) (by omega), b64Val_b64Char (a % 4 * 16) (by omega)]
      have h1 : a % 4 * 16 % 16 = 0 := by omega
      simp [h1]
      omega
  | case3 a b =>
      have ha : a < 256 := hl a (by simp)
      have hb : b < 256 := hl b (by simp)
      have hpad : b64Char (b % 16 * 4) ≠ '=' := b64Char_ne_pad _ (by omega)
      simp only [b64encodeList, b64decodeList, if_pos rfl, b64decodeQuantum,
        if_pos rfl, if_neg hpad]
      rw [b64Val_b64Char (a / 4) (by omega), b64Val_b64Char (a % 4 * 16 + b / 16) (by omega),
        b64Val_b64Char (b % 16 * 4) (by omega)]
      have h1 : b % 16 * 4 % 4 = 0 := by omega
      simp [h1, hpad]
      omega
  | case4 a b c rest ih =>
      have ha : a < 256 := hl a (by simp)
      have hb : b < 256 := hl b (by simp)
      have hc : c < 256 := hl c (by simp)
      have hrest : ∀ x ∈ rest, x < 256 := fun x hx => hl x (by simp [hx])
      have ihr := ih hrest
      cases rest with
      | nil =>
          have hpad : b64Char (c % 64) ≠ '=' := b64Char_ne_pad _ (by omega)
          simp only [b64encodeList, b64decodeList, if_pos rfl, b64decodeQuantum,
            if_neg hpad]
          rw [b64Val_b64Char (a / 4) (by omega),
            b64Val_b64Char (a % 4 * 16 + b / 16) (by omega),
            b64Val_b64Char (b % 16 * 4 + c / 64) (by omega),
            b64Val_b64Char (c % 64) (by omega)]
          simp [hpad]
          omega
      | cons d tail =>
          have hne : b64encodeList (d :: tail) ≠ [] := by
            simp [b64encodeList_eq_nil_iff]
          simp only [b64encodeList, b64decodeList, if_neg hne]
          rw [b64Val_b64Char (a / 4) (by omega),
            b64Val_b64Char (a % 4 * 16 + b / 16) (by omega),
            b64Val_b64Char (b % 16 * 4 + c / 64) (by omega),
            b64Val_b64Char (c % 64) (by omega)]
          rw [ihr]
          simp
          omega

/-- The base64 encoder is injective on byte sequences (immediate from the round-trip). -/
theorem b64encode_injective (l1 l2 : List Nat) (h1 : ∀ b ∈ l1, b < 256)
    (h2 : ∀ b ∈ l2, b < 256) (h : b64encode l1 = b64encode l2) : l1 = l2 := by
  have hdata : b64encodeList l1 = b64encodeList l2 := congrArg String.data h
  have := b64decodeList_b64encodeList l1 h1
  rw [hdata, b64decodeList_b64encodeList l2 h2] at this
  exact (Option.some.injEq _ _ ▸ this).symm

/-! ## Helper lemmas: the encrypt/decrypt round-trip -/

/-- Shared round-trip fact: decrypting an encrypted payload under the same key
recovers the password, for any drawn nonce. -/
theorem decrypt_encrypt_password (A : AeadCipher) (db : Database) (nonce pw : List Nat)
    (hn : nonce.length = 12) (hnb : ∀ b ∈ nonce, b < 256)
    (hpb : ∀ b ∈ pw, b < 256) (hputf : isValidUtf8 pw = true) :
    db.decrypt_password A (db.encrypt_password A nonce pw) = .ok pw := by
  unfold Database.encrypt_password Database.decrypt_password b64decode b64encode
  have hbytes : ∀ b ∈ nonce ++ A.enc db.encryption_key nonce pw, b < 256 := by
    intro b hb
    rcases List.mem_append.1 hb with h | h
    · exact hnb b h
    · exact A.enc_bytes _ _ _ hpb b h
  rw [show (String.mk (b64encodeList (nonce ++ A.enc db.encryption_key nonce pw))).data
      = b64encodeList (nonce ++ A.enc db.encryption_key nonce pw) from rfl]
  rw [b64decodeList_b64encodeList _ hbytes]
  have hlen : (nonce ++ A.enc db.encryption_key nonce pw).length
      = 12 + (A.enc db.encryption_key nonce pw).length := by
    simp [hn]
  have hnotlt : ¬ (nonce ++ A.enc db.encryption_key nonce pw).length < 12 := by omega
  have htake : (nonce ++ A.enc db.encryption_key nonce pw).take 12 = nonce := by
    rw [List.take_append_of_le_length (by omega)]
    exact List.take_of_length_le (by omega)
  have hdrop : (nonce ++ A.enc db.encryption_key nonce pw).drop 12
      = A.enc db.encryption_key nonce pw := by
    rw [List.drop_append_of_le_length (by omega), List.drop_of_length_le (by omega)]
    exact List.nil_append _
  simp [hnotlt, htake, hdrop, A.dec_enc, hputf]
  omega

/-! ## Claim C1 -/

/-- Claim C1. For every plaintext string `P` (a valid-UTF-8 byte sequence) and every
32-byte symmetric key `K`, decrypting the payload produced by encrypting `P` under
`K` yields `P` again — `decrypt_password (encrypt_password P K) K = Ok P` — for any
nonce drawn during encryption. -/
theorem c1_decrypt_encrypt_round_trip (A : AeadCipher) (db : Database)
    (nonce pw : List Nat) (_hkey : db.encryption_key.length = 32)
    (hn : nonce.length = 12) (hnb : ∀ b ∈ nonce, b < 256)
    (hpb : ∀ b ∈ pw, b < 256) (hputf : isValidUtf8 pw = true) :
    db.decrypt_password A (db.encrypt_password A nonce pw) = .ok pw :=
  decrypt_encrypt_password A db nonce pw hn hnb hpb hputf

/-- Witness for C1 at the password `"pass123"`, an all-zero 32-byte key and an
all-zero drawn nonce, under the concrete demo cipher. -/
theorem c1_witness :
    (List.replicate 32 (0 : Nat)).length = 32
    ∧ (List.replicate 12 (0 : Nat)).length = 12
    ∧ isValidUtf8 [112, 97, 115, 115, 49, 50, 51] = true
    ∧ Database.decrypt_password demoCipher ⟨List.replicate 32 0⟩
        (Database.encrypt_password demoCipher ⟨List.replicate 32 0⟩ (List.replicate 12 0)
          [112, 97, 115, 115, 49, 50, 51])
        = .ok [112, 97, 115, 115, 49, 50, 51] :=
  ⟨by decide, by decide, by decide,
    c1_decrypt_encrypt_round_trip demoCipher ⟨List.replicate 32 0⟩ (List.replicate 12 0)
      [112, 97, 115, 115, 49, 50, 51] (by decide) (by decide) (by decide) (by decide)
      (by decide)⟩

/-! ## Claim C2 -/

/-- Claim C2. Two calls to `encrypt_password` on the same plaintext and key that draw
distinct 12-byte nonces produce distinct encoded payloads.  (Nonce freshness itself
is the `OsRng` draw in src/db/mod.rs:228-231, modelled as the per-call `nonce`
argument.) -/
theorem c2_distinct_nonces_distinct_payloads (A : AeadCipher) (db : Database)
    (nonce1 nonce2 pw : List Nat) (h1 : nonce1.length = 12) (h2 : nonce2.length = 12)
    (hb1 : ∀ b ∈ nonce1, b < 256) (hb2 : ∀ b ∈ nonce2, b < 256)
    (hpb : ∀ b ∈ pw, b < 256) (hne : nonce1 ≠ nonce2) :
    db.encrypt_password A nonce1 pw ≠ db.encrypt_password A nonce2 pw := by
  intro h
  have hbytes1 : ∀ b ∈ nonce1 ++ A.enc db.encryption_key nonce1 pw, b < 256 := by
    intro b hb
    rcases List.mem_append.1 hb with hx | hx
    · exact hb1 b hx
    · exact A.enc_bytes _ _ _ hpb b hx
  have hbytes2 : ∀ b ∈ nonce2 ++ A.enc db.encryption_key nonce2 pw, b < 256 := by
    intro b hb
    rcases List.mem_append.1 hb with hx | hx
    · exact hb2 b hx
    · exact A.enc_bytes _ _ _ hpb b hx
  have hinj := b64encode_injective _ _ hbytes1 hbytes2 h
  exact hne (List.append_inj hinj (by omega)).1

/-- Witness for C2: the all-zero and the all-one nonce yield different payloads for
the same password and key. -/
theorem c2_witness :
    ((List.replicate 12 (0 : Nat)) ≠ List.replicate 12 1)
    ∧ Database.encrypt_password demoCipher ⟨List.replicate 32 0⟩ (List.replicate 12 0)
        [112, 97, 115, 115, 49, 50, 51]
      ≠ Database.encrypt_password demoCipher ⟨List.replicate 32 0⟩ (List.replicate 12 1)
        [112, 97, 115, 115, 49, 50, 51] :=
  ⟨by decide,
    c2_distinct_nonces_distinct_payloads demoCipher ⟨List.replicate 32 0⟩
      (List.replicate 12 0) (List.replicate 12 1) [112, 97, 115, 115, 49, 50, 51]
      (by decide) (by decide) (by decide) (by decide) (by decide) (by decide)⟩

/-! ## Claim C3 (corrected)

All three failure paths of `decrypt_password` return an error of the same Rust
type (`anyhow::Error`), but each carries the message attached at its failure site,
so the cause *is* recoverable from the returned value — the "no way for a caller to
tell which cause occurred" part of the claim does not hold. -/

/-- Claim C3, counterexample. Two failing payloads — one that fails base64 decoding
and one whose decoded form is shorter than 12 bytes — return errors with different
messages under the same key, so the returned values distinguish the causes. -/
theorem c3_counterexample :
    Database.decrypt_password demoCipher ⟨List.replicate 32 0⟩ "%%%%"
      = .error "Failed to decode encrypted password"
    ∧ Database.decrypt_password demoCipher ⟨List.replicate 32 0⟩ "AAAAAAA="
      = .error "Encrypted password payload is too short"
    ∧ ("Failed to decode encrypted password" : String)
      ≠ "Encrypted password payload is too short" := by
  refine ⟨by decide, by decide, by decide⟩

/-- Claim C3, amended. The function `decrypt_password` fails closed on every malformed payload —
a payload that fails base64 decoding, a decoded payload shorter than the 12 nonce
bytes, and a payload whose AEAD tag verification fails all return an error of the
same Rust error type — but the error messages name the failure site, so the causes
are distinguishable from the returned value. -/
theorem c3_fails_closed_with_distinct_messages (A : AeadCipher) (db : Database)
    (s : String) :
    (b64decode s = none →
        db.decrypt_password A s = .error "Failed to decode encrypted password")
    ∧ (∀ payload, b64decode s = some payload → payload.length < 12 →
        db.decrypt_password A s = .error "Encrypted password payload is too short")
    ∧ (∀ payload, b64decode s = some payload → ¬ payload.length < 12 →
        A.dec db.encryption_key (payload.take 12) (payload.drop 12) = none →
        db.decrypt_password A s = .error "Failed to decrypt password") := by
  refine ⟨?_, ?_, ?_⟩
  · intro h
    unfold Database.decrypt_password
    rw [h]
  · intro payload h hlt
    unfold Database.decrypt_password
    rw [h]
    simp [hlt]
  · intro payload h hge hdec
    unfold Database.decrypt_password
    rw [h]
    simp [hge, hdec]

/-- Witness for C3 (amended), exercising the base64-failure conjunct at the
non-base64 payload `"%%%%"`. -/
theorem c3_witness :
    b64decode "%%%%" = none
    ∧ Database.decrypt_password demoCipher ⟨List.replicate 32 0⟩ "%%%%"
      = .error "Failed to decode encrypted password" :=
  ⟨by decide,
    (c3_fails_closed_with_distinct_messages demoCipher ⟨List.replicate 32 0⟩ "%%%%").1
      (by decide)⟩

/-! ## Claim C4 -/

/-- Claim C4. The function `get_endpoint_password` never returns an error: with no stored payload
it returns `none`, and when the stored payload fails to decrypt for any reason it
logs a warning naming the endpoint and returns `none` instead of propagating the
failure. -/
theorem c4_get_endpoint_password_never_fails (A : AeadCipher) (db : Database)
    (e : Endpoint) :
    (e.password_encrypted = none → (db.get_endpoint_password A e).1 = none)
    ∧ (∀ payload msg, e.password_encrypted = some payload →
        db.decrypt_password A payload = .error msg →
        (db.get_endpoint_password A e).1 = none
        ∧ (LogLevel.warn, warnDecryptMsg e.id msg) ∈ (db.get_endpoint_password A e).2) := by
  refine ⟨?_, ?_⟩
  · intro h
    unfold Database.get_endpoint_password
    rw [h]
    by_cases hu : e.username.isSome <;> simp [hu]
  · intro payload msg h hdec
    unfold Database.get_endpoint_password
    simp only [h]
    rw [hdec]
    by_cases hu : e.username.isSome <;> simp [hu]

/-- Witness for C4: an endpoint whose stored payload is not base64 decrypts to
nothing and the warning naming it is logged. -/
theorem c4_witness :
    (⟨1, "prod", "https://example:9200", false, some "elastic", some "%%%%", 0, 0⟩ :
        Endpoint).password_encrypted = some "%%%%"
    ∧ Database.decrypt_password demoCipher ⟨List.replicate 32 0⟩ "%%%%"
      = .error "Failed to decode encrypted password"
    ∧ (Database.get_endpoint_password demoCipher ⟨List.replicate 32 0⟩
        ⟨1, "prod", "https://example:9200", false, some "elastic", some "%%%%", 0, 0⟩).1
      = none
    ∧ (LogLevel.warn, warnDecryptMsg 1 "Failed to decode encrypted password")
      ∈ (Database.get_endpoint_password demoCipher ⟨List.replicate 32 0⟩
        ⟨1, "prod", "https://example:9200", false, some "elastic", some "%%%%", 0, 0⟩).2 :=
  ⟨by decide, by decide,
    ((c4_get_endpoint_password_never_fails demoCipher ⟨List.replicate 32 0⟩
        ⟨1, "prod", "https://example:9200", false, some "elastic", some "%%%%", 0, 0⟩).2
      "%%%%" "Failed to decode encrypted password" (by decide) (by decide)).1,
    ((c4_get_endpoint_password_never_fails demoCipher ⟨List.replicate 32 0⟩
        ⟨1, "prod", "https://example:9200", false, some "elastic", some "%%%%", 0, 0⟩).2
      "%%%%" "Failed to decode encrypted password" (by decide) (by decide)).2⟩

/-! ## Claim C5 (spec-modelled migration) -/

/-- Claim C5. For a legacy record whose external-secret-store lookup fails but whose
base64 fallback is `"cGFzczEyMw=="`, the migration re-encrypts the decoded fallback
under the current key, and the produced payload decrypts back to `"pass123"`
(bytes `[112, 97, 115, 115, 49, 50, 51]`); moreover, whenever the store lookup
fails and the fallback decodes, the record is never treated as secret-less. -/
theorem c5_migration_recovers_fallback (A : AeadCipher) (db : Database)
    (nonce : List Nat) (secret_store : String → Except String (List Nat))
    (record : LegacyEndpointRecord) (keychain_id err : String)
    (hkid : record.password_keychain_id = some keychain_id)
    (hstore : secret_store keychain_id = .error err)
    (hfb : record.password_fallback = some "cGFzczEyMw==")
    (hn : nonce.length = 12) (hnb : ∀ b ∈ nonce, b < 256) :
    migrate_legacy_record A db nonce secret_store record
      = some (db.encrypt_password A nonce [112, 97, 115, 115, 49, 50, 51])
    ∧ db.decrypt_password A (db.encrypt_password A nonce [112, 97, 115, 115, 49, 50, 51])
      = .ok [112, 97, 115, 115, 49, 50, 51]
    ∧ (∀ (record2 : LegacyEndpointRecord) (kid2 err2 fb : String) (pw : List Nat),
        record2.password_keychain_id = some kid2 → secret_store kid2 = .error err2 →
        record2.password_fallback = some fb → b64decode fb = some pw →
        (migrate_legacy_record A db nonce secret_store record2).isSome = true) := by
  have hdec : b64decode "cGFzczEyMw==" = some [112, 97, 115, 115, 49, 50, 51] := by decide
  refine ⟨?_, ?_, ?_⟩
  · simp [migrate_legacy_record, hkid, hstore, hfb, hdec]
  · exact decrypt_encrypt_password A db nonce _ hn hnb (by decide) (by decide)
  · intro record2 kid2 err2 fb pw hkid2 hstore2 hfb2 hdec2
    simp [migrate_legacy_record, hkid2, hstore2, hfb2, hdec2]

/-- Witness for C5: a concrete legacy record with an unreachable keychain id and
the fallback `"cGFzczEyMw=="`, migrated under the demo cipher and all-zero key and
nonce. -/
theorem c5_witness :
    ((⟨7, some "endpoint-7", some "cGFzczEyMw=="⟩ :
        LegacyEndpointRecord).password_keychain_id = some "endpoint-7")
    ∧ migrate_legacy_record demoCipher ⟨List.replicate 32 0⟩ (List.replicate 12 0)
        (fun _ => .error "Failed to retrieve password from keychain: NoEntry")
        ⟨7, some "endpoint-7", some "cGFzczEyMw=="⟩
      = some (Database.encrypt_password demoCipher ⟨List.replicate 32 0⟩
          (List.replicate 12 0) [112, 97, 115, 115, 49, 50, 51])
    ∧ Database.decrypt_password demoCipher ⟨List.replicate 32 0⟩
        (Database.encrypt_password demoCipher ⟨List.replicate 32 0⟩
          (List.replicate 12 0) [112, 97, 115, 115, 49, 50, 51])
      = .ok [112, 97, 115, 115, 49, 50, 51] :=
  ⟨by decide,
    (c5_migration_recovers_fallback demoCipher ⟨List.replicate 32 0⟩
      (List.replicate 12 0)
      (fun _ => .error "Failed to retrieve password from keychain: NoEntry")
      ⟨7, some "endpoint-7", some "cGFzczEyMw=="⟩ "endpoint-7"
      "Failed to retrieve password from keychain: NoEntry" (by decide) rfl (by decide)
      (by decide) (by decide)).1,
    (c5_migration_recovers_fallback demoCipher ⟨List.replicate 32 0⟩
      (List.replicate 12 0)
      (fun _ => .error "Failed to retrieve password from keychain: NoEntry")
      ⟨7, some "endpoint-7", some "cGFzczEyMw=="⟩ "endpoint-7"
      "Failed to retrieve password from keychain: NoEntry" (by decide) rfl (by decide)
      (by decide) (by decide)).2.1⟩

/-! ## Claim C6 -/

/-- Claim C6. The component-templates gate compares lexicographically on
`(major, minor)` only — patch never gates: `{7,7,0}` is rejected with the error
naming the minimum version `7.8`, while `{7,8,0}` and `{8,0,0}` are accepted. -/
theorem c6_version_gate_lexicographic :
    get_component_templates_path (some ⟨7, 7, 0⟩)
      = .error "Component templates require Elasticsearch 7.8 or higher"
    ∧ ("7.8".data <:+: ("Component templates require Elasticsearch 7.8 or higher").data)
    ∧ get_component_templates_path (some ⟨7, 8, 0⟩) = .ok "/_component_template"
    ∧ get_component_templates_path (some ⟨8, 0, 0⟩) = .ok "/_component_template"
    ∧ (∀ major minor p q : Nat, get_component_templates_path (some ⟨major, minor, p⟩)
        = get_component_templates_path (some ⟨major, minor, q⟩))
    ∧ (∀ v : EsVersion, (get_component_templates_path (some v)).isOk = true
        ↔ (7 < v.major ∨ (v.major = 7 ∧ 8 ≤ v.minor))) := by
  refine ⟨by decide, by decide, by decide, by decide, ?_, ?_⟩
  · intro major minor p q
    rfl
  · intro v
    unfold get_component_templates_path
    by_cases h : v.major ≥ 8 ∨ (v.major = 7 ∧ v.minor ≥ 8)
    · simp only [if_pos h, Except.isOk]
      constructor
      · intro _
        omega
      · intro _
        rfl
    · simp only [if_neg h, Except.isOk]
      constructor
      · intro hfalse
        exact absurd hfalse (by decide)
      · intro hcontra
        exact absurd hcontra (by omega)

/-! ## Claim C7 (corrected)

With no cached version, `get_index_templates` does fall back to the modern
`/_index_template` path, but `get_component_templates` returns the unsupported
error: its `Err` is reached whenever the `if let Some(version)` body does not
return, which includes the `None` case. -/

/-- Claim C7, counterexample. With no detected version, `get_component_templates`
does not proceed on the modern path: it fails. -/
theorem c7_counterexample : (get_component_templates_path none).isOk = false := by
  decide

/-- Claim C7, amended. With no cached version, `get_index_templates` assumes the
newest known behavior (the modern `/_index_template` path) — but
`get_component_templates` instead returns the unsupported-version error. -/
theorem c7_undetected_version_behavior :
    get_index_templates_path none = "/_index_template"
    ∧ get_component_templates_path none
      = .error "Component templates require Elasticsearch 7.8 or higher" :=
  ⟨rfl, rfl⟩

/-! ## Claim C8 -/

/-- Claim C8. The parser `EsVersion::from_string` splits on `.` and requires at least three
numeric components: `"7.17.0"` and `"8.11.1"` parse to `{7,17,0}` and `{8,11,1}`;
fewer than three dot-separated parts is an error, and a non-numeric part among the
first three is an error. -/
theorem c8_from_string_spec :
    EsVersion.from_string "7.17.0" = .ok ⟨7, 17, 0⟩
    ∧ EsVersion.from_string "8.11.1" = .ok ⟨8, 11, 1⟩
    ∧ EsVersion.from_string "7.17" = .error "Invalid version format: 7.17"
    ∧ (EsVersion.from_string "a.b.c").isOk = false
    ∧ (∀ s : String, (splitOnDot s.data).length < 3 →
        EsVersion.from_string s = .error ("Invalid version format: " ++ s))
    ∧ (∀ (s : String) (p0 p1 p2 : List Char) (ps : List (List Char)),
        splitOnDot s.data = p0 :: p1 :: p2 :: ps →
        (parse_u32 p0 = none ∨ parse_u32 p1 = none ∨ parse_u32 p2 = none) →
        (EsVersion.from_string s).isOk = false) := by
  refine ⟨by decide, by decide, by decide, by decide, ?_, ?_⟩
  · intro s hlen
    unfold EsVersion.from_string
    rcases hsplit : splitOnDot s.data with _ | ⟨p0, _ | ⟨p1, _ | ⟨p2, ps⟩⟩⟩
    · rfl
    · rfl
    · rfl
    · rw [hsplit] at hlen
      simp at hlen
      omega
  · intro s p0 p1 p2 ps hsplit hbad
    have heval : EsVersion.from_string s
        = (match parse_u32 p0 with
           | none => .error "Invalid major version"
           | some major =>
             match parse_u32 p1 with
             | none => .error "Invalid minor version"
             | some minor =>
               match parse_u32 p2 with
               | none => .error "Invalid patch version"
               | some patch => .ok ⟨major, minor, patch⟩) := by
      unfold EsVersion.from_string
      rw [hsplit]
    rw [heval]
    rcases hbad with h | h | h
    · rw [h]
      rfl
    · cases hp0 : parse_u32 p0 with
      | none => rfl
      | some major =>
          rw [h]
          rfl
    · cases hp0 : parse_u32 p0 with
      | none => rfl
      | some major =>
          cases hp1 : parse_u32 p1 with
          | none => rfl
          | some minor =>
              rw [h]
              rfl

/-- Witness for C8, exercising the fewer-than-three-components conjunct at
`"7.17"`. -/
theorem c8_witness :
    (splitOnDot ("7.17").data).length < 3
    ∧ EsVersion.from_string "7.17" = .error ("Invalid version format: " ++ "7.17") :=
  ⟨by decide, c8_from_string_spec.2.2.2.2.1 "7.17" (by decide)⟩

/-! ## Claim C9: helper lemmas for hex and trim -/

/-- Decoding a hex digit produced from a four-bit value recovers the value. -/
theorem hexCharVal_hexDigitChar : ∀ n < 16, hexCharVal (hexDigitChar n) = some n := by
  decide

/-- Hex digits are not whitespace. -/
theorem hexDigitChar_not_ws : ∀ n < 16, isRustWhitespace (hexDigitChar n) = false := by
  decide

/-- Hex round-trip: decoding an encoded byte sequence recovers the bytes. -/
theorem hexDecodeList_hexEncodeList (l : List Nat) (hl : ∀ b ∈ l, b < 256) :
    hexDecodeList (hexEncodeList l) = some l := by
  induction l with
  | nil => rfl
  | cons b rest ih =>
      have hb : b < 256 := hl b (by simp)
      have hrest : ∀ x ∈ rest, x < 256 := fun x hx => hl x (by simp [hx])
      simp only [hexEncodeList, hexDecodeList]
      rw [hexCharVal_hexDigitChar (b / 16) (by omega),
        hexCharVal_hexDigitChar (b % 16) (by omega), ih hrest]
      simp
      omega

/-- Every character of a hex encoding of bytes is a hex digit, hence not
whitespace. -/
theorem hexEncodeList_not_ws (l : List Nat) (hl : ∀ b ∈ l, b < 256) :
    ∀ c ∈ hexEncodeList l, isRustWhitespace c = false := by
  induction l with
  | nil => simp [hexEncodeList]
  | cons b rest ih =>
      intro c hc
      have hb : b < 256 := hl b (by simp)
      have hrest : ∀ x ∈ rest, x < 256 := fun x hx => hl x (by simp [hx])
      simp only [hexEncodeList] at hc
      rcases List.mem_cons.1 hc with h | hc1
      · exact h ▸ hexDigitChar_not_ws _ (by omega)
      rcases List.mem_cons.1 hc1 with h | hc2
      · exact h ▸ hexDigitChar_not_ws _ (by omega)
      exact ih hrest c hc2

/-- `str::trim` of a whitespace-free character sequence is the identity. -/
theorem trimChars_of_no_ws (cs : List Char)
    (h : ∀ c ∈ cs, isRustWhitespace c = false) : trimChars cs = cs := by
  have hdrop : ∀ (l : List Char), (∀ c ∈ l, isRustWhitespace c = false) →
      l.dropWhile isRustWhitespace = l := by
    intro l hl
    cases l with
    | nil => rfl
    | cons c rest =>
        rw [List.dropWhile_cons, if_neg (by simp [hl c (by simp)])]
  unfold trimChars
  rw [hdrop _ h, hdrop _ (fun c hc => h c (List.mem_reverse.1 hc)),
    List.reverse_reverse]

/-- Claim C9. The function `load_or_create_key` is idempotent: a first call with no key file
returns the freshly drawn 32 bytes and writes them hex-encoded; a second call
against the written file reads, trims, hex-decodes and returns exactly the same
32 key bytes, regardless of what the OS entropy source would yield then. -/
theorem c9_load_or_create_key_idempotent (fresh fresh2 : List Nat)
    (h32 : fresh.length = 32) (hb : ∀ b ∈ fresh, b < 256) :
    load_or_create_key none fresh = .ok (fresh, some (hexEncodeList fresh))
    ∧ load_or_create_key (some (hexEncodeList fresh)) fresh2
      = .ok (fresh, some (hexEncodeList fresh)) := by
  refine ⟨rfl, ?_⟩
  have ht := trimChars_of_no_ws _ (hexEncodeList_not_ws fresh hb)
  have hd := hexDecodeList_hexEncodeList fresh hb
  simp only [load_or_create_key, ht, hd]
  simp [h32]

/-- Witness for C9 at a concrete all-zero first draw (the second draw differs, and
is ignored because the file now exists). -/
theorem c9_witness :
    (List.replicate 32 (0 : Nat)).length = 32
    ∧ load_or_create_key none (List.replicate 32 0)
      = .ok (List.replicate 32 0, some (hexEncodeList (List.replicate 32 0)))
    ∧ load_or_create_key (some (hexEncodeList (List.replicate 32 0)))
        (List.replicate 32 255)
      = .ok (List.replicate 32 0, some (hexEncodeList (List.replicate 32 0))) :=
  ⟨by decide,
    (c9_load_or_create_key_idempotent (List.replicate 32 0) (List.replicate 32 255)
      (by decide) (by decide)).1,
    (c9_load_or_create_key_idempotent (List.replicate 32 0) (List.replicate 32 255)
      (by decide) (by decide)).2⟩

/-! ## Claim C10 -/

/-- The identity-field update of `update_endpoint` never touches the
`password_encrypted` column of any row. -/
theorem update_rows_password_frame (rows : List Endpoint) (id : Int)
    (name url : String) (insecure : Bool) (username : Option String) (now : Nat) :
    (rows.map fun r =>
        if r.id = id then
          { r with name := name, url := url, insecure := insecure,
                   username := username, updated_at := now }
        else r).map (fun r => r.password_encrypted)
      = rows.map fun r => r.password_encrypted := by
  induction rows with
  | nil => rfl
  | cons r rest ih =>
      simp only [List.map_cons, ih]
      by_cases hr : r.id = id <;> simp [hr]

/-- Claim C10. Calling `update_endpoint` with `password = None` leaves every row's
`password_encrypted` unchanged while updating `name`, `url`, `insecure`,
`username` and `updated_at` of the matching row; a credential is re-encrypted and
overwritten only when a new password is supplied. -/
theorem c10_update_endpoint_password_frame (A : AeadCipher) (db : Database)
    (nonce : List Nat) (now : Nat) (rows : List Endpoint) (id : Int)
    (u : UpdateEndpoint) (name url : String) (insecure : Bool)
    (hname : u.name = some name) (hurl : u.url = some url)
    (hins : u.insecure = some insecure) (hpw : u.password = none) :
    Database.update_endpoint A db nonce now rows id u
      = .ok (rows.map fun r =>
          if r.id = id then
            { r with name := name, url := url, insecure := insecure,
                     username := u.username, updated_at := now }
          else r)
    ∧ ∀ rows2, Database.update_endpoint A db nonce now rows id u = .ok rows2 →
        rows2.map (fun r => r.password_encrypted)
          = rows.map fun r => r.password_encrypted := by
  have hmain : Database.update_endpoint A db nonce now rows id u
      = .ok (rows.map fun r =>
          if r.id = id then
            { r with name := name, url := url, insecure := insecure,
                     username := u.username, updated_at := now }
          else r) := by
    unfold Database.update_endpoint
    rw [hname, hurl, hins, hpw]
  refine ⟨hmain, ?_⟩
  intro rows2 h2
  rw [hmain] at h2
  have hrows2 := Except.ok.inj h2
  subst hrows2
  exact update_rows_password_frame rows id name url insecure u.username now

/-- Witness for C10: updating a row without a password keeps its stored payload. -/
theorem c10_witness :
    ((⟨some "new", some "http://n:9200", some true, some "u", none⟩ :
        UpdateEndpoint).password = none)
    ∧ Database.update_endpoint demoCipher ⟨List.replicate 32 0⟩ (List.replicate 12 0) 5
        [⟨1, "old", "http://o:9200", false, none, some "payload", 0, 0⟩] 1
        ⟨some "new", some "http://n:9200", some true, some "u", none⟩
      = .ok [⟨1, "new", "http://n:9200", true, some "u", some "payload", 0, 5⟩] :=
  ⟨rfl, by
    have h := (c10_update_endpoint_password_frame demoCipher ⟨List.replicate 32 0⟩
      (List.replicate 12 0) 5
      [⟨1, "old", "http://o:9200", false, none, some "payload", 0, 0⟩] 1
      ⟨some "new", some "http://n:9200", some true, some "u", none⟩
      "new" "http://n:9200" true rfl rfl rfl rfl).1
    rw [h]
    decide⟩

end ElasticExplorer
